import Mathlib

/-!
Verification of the KMS connection-supervision loop, signing session and
keyring against their natural-language specification.

The embedding follows the source:
* `src/src/ed25519/keyring.rs` — `Keyring`, `Keyring::from_signers`;
* `src/src/session.rs` — `Session::handle_request`, `Session::sign`;
* `src/src/client.rs` — `client_loop`, `client_session`, `RESPAWN_DELAY`,
  `Client::spawn`.

Parts of the repository referenced but not present (`rpc.rs`, `error.rs`,
the signatory `PublicKey`/`Signer` types and `Keyring::sign`) are modelled
from the specification; each such definition says so in its doc comment.

Machine integers are Nat; byte strings are `List Nat`; the blocking socket
is an explicit pair of byte lists (pending input, written output); the
supervising thread is a function from the sequence of per-session outcomes
to the trace of observable events (session runs, log lines, sleeps).
-/

namespace KMS

/-- Modelled from the spec: the error taxonomy of the missing `error.rs`
(connection, protocol, invalid-key and provider errors, §7 of the spec). -/
inductive Error where
  | connectionError (detail : String)
  | protocolError (detail : String)
  | invalidKey
  | providerError (detail : String)
deriving DecidableEq

/-- Modelled from the spec: the rendering of an error as the log line
detail (the `Display` impl lives in the missing `error.rs`). -/
def Error.display : Error → String
  | .connectionError d => "connection error: " ++ d
  | .protocolError d => "protocol error: " ++ d
  | .invalidKey => "invalid key"
  | .providerError d => "provider error: " ++ d

instance {α : Type} [DecidableEq α] : DecidableEq (Except Error α) := fun a b =>
  match a, b with
  | .ok x, .ok y =>
    match decEq x y with
    | isTrue h => isTrue (by rw [h])
    | isFalse h => isFalse (fun hh => h (by cases hh; rfl))
  | .error x, .error y =>
    match decEq x y with
    | isTrue h => isTrue (by rw [h])
    | isFalse h => isFalse (fun hh => h (by cases hh; rfl))
  | .ok _, .error _ => isFalse (fun hh => Except.noConfusion hh)
  | .error _, .ok _ => isFalse (fun hh => Except.noConfusion hh)

/-- Raw byte strings (each element one byte). -/
abbrev Bytes := List Nat

/-- Public keys as raw byte strings; `PublicKey.from_bytes` validates the
32-byte length. -/
abbrev PublicKey := Bytes

/-- Modelled from the spec: the Signer capability record of §4.2
(`{provider_name, key_id}` plus the outcomes of its two fallible
operations; provider backends are out of scope, so the outcome of the
one-time public-key derivation is a field, as is the signing function). -/
structure Signer where
  provider_name : String
  key_id : String
  public_key : Except Error PublicKey
  sign : Bytes → Except Error Bytes

/-- Whether a signer's public-key derivation succeeds. -/
def derivesOk (s : Signer) : Bool :=
  match s.public_key with
  | .ok _ => true
  | .error _ => false

/-- The keyring's `HashMap<PublicKey, Signer>` as an association list. -/
abbrev KeyMap := List (PublicKey × Signer)

/-- `HashMap::insert`: replaces the binding of an existing key, otherwise
appends a new binding. -/
def insertKey : KeyMap → PublicKey → Signer → KeyMap
  | [], pk, s => [(pk, s)]
  | (k, v) :: rest, pk, s =>
    if k = pk then (pk, s) :: rest else (k, v) :: insertKey rest pk s

/-- `HashMap::get`: the binding of a key, when present. -/
def lookupKey : KeyMap → PublicKey → Option Signer
  | [], _ => none
  | (k, v) :: rest, pk => if k = pk then some v else lookupKey rest pk

/-- `Keyring` from `keyring.rs`: a mapping from public keys to signers. -/
structure Keyring where
  keys : KeyMap

/-- The loop body of `Keyring::from_signers`: derive each signer's public
key (propagating the first failure) and insert the signer under it. -/
def fromSignersAux (keys : KeyMap) : List Signer → Except Error KeyMap
  | [] => .ok keys
  | s :: rest =>
    match s.public_key with
    | .error e => .error e
    | .ok pk => fromSignersAux (insertKey keys pk s) rest

/-- `Keyring::from_signers` from `keyring.rs`. -/
def Keyring.from_signers (signers : List Signer) : Except Error Keyring :=
  match fromSignersAux [] signers with
  | .error e => .error e
  | .ok ks => .ok ⟨ks⟩

/-- Modelled from the spec: `Keyring::sign` (§4.1; the method itself is in
the missing part of the ed25519 module). It takes the keyring by shared
reference, so it is given here in state-passing form returning the keyring
alongside the result: look up `pk`, fail with `InvalidKey` if absent,
otherwise delegate to the matching signer. -/
def Keyring.signSt (kr : Keyring) (pk : PublicKey) (msg : Bytes) :
    Except Error Bytes × Keyring :=
  match lookupKey kr.keys pk with
  | none => (.error .invalidKey, kr)
  | some s => (s.sign msg, kr)

/-- The result component of `Keyring.signSt`. -/
def Keyring.sign (kr : Keyring) (pk : PublicKey) (msg : Bytes) :
    Except Error Bytes :=
  (kr.signSt pk msg).1

/-- The last signer of the list whose public-key derivation yields `pk`
(the spec's phrase for duplicate handling: the signer occurring later in
list order wins). -/
def lastDerived : List Signer → PublicKey → Option Signer
  | [], _ => none
  | s :: rest, pk =>
    match lastDerived rest pk with
    | some t => some t
    | none => if s.public_key = .ok pk then some s else none

/-- The lookup a construction result supports: none on a failed
construction, otherwise the keyring's own lookup. -/
def lookupResult (r : Except Error Keyring) (pk : PublicKey) : Option Signer :=
  match r with
  | .error _ => none
  | .ok kr => lookupKey kr.keys pk

/-- `SignRequest` from the missing `rpc.rs` (fields per the spec's wire
format, §6). -/
structure SignRequest where
  public_key : Bytes
  msg : Bytes
deriving DecidableEq

/-- `Request` from the missing `rpc.rs`: currently the single tag. -/
inductive Request where
  | sign (req : SignRequest)
deriving DecidableEq

/-- `SignResponse` from the missing `rpc.rs`. -/
structure SignResponse where
  sig : Bytes
deriving DecidableEq

/-- `Response` from the missing `rpc.rs`. -/
inductive Response where
  | sign (resp : SignResponse)
deriving DecidableEq

/-- The 4-byte big-endian encoding of a length. -/
def encodeBE32 (n : Nat) : Bytes :=
  [n / 16777216 % 256, n / 65536 % 256, n / 256 % 256, n % 256]

/-- Modelled from the spec: `Request::to_vec` over the wire format of §6 —
tag byte 0, 32 raw public-key bytes, 4-byte big-endian message length,
message bytes. -/
def Request.to_vec : Request → Bytes
  | .sign q => 0 :: (q.public_key ++ encodeBE32 q.msg.length ++ q.msg)

/-- Modelled from the spec: `Response::to_vec` — tag byte 0 then the 64 raw
signature bytes. -/
def Response.to_vec : Response → Bytes
  | .sign r => 0 :: r.sig

/-- Reading exactly `n` bytes from the stream: the prefix and the rest, or
nothing when the stream is too short. -/
def takeExact (n : Nat) (l : Bytes) : Option (Bytes × Bytes) :=
  if n ≤ l.length then some (l.take n, l.drop n) else none

/-- Modelled from the spec: `Request::read` from the missing `rpc.rs`.
Reads one framed request off the stream: rejects an unknown tag, truncated
fixed fields and a message length above the configured maximum with a
`ProtocolError`; end-of-stream surfaces as an `Error` value because the
Rust signature is `Result<Request, Error>`. -/
def Request.read (maxLen : Nat) (input : Bytes) :
    Except Error (Request × Bytes) :=
  match input with
  | [] => .error (.connectionError "unexpected end of stream")
  | tag :: rest =>
    if tag = 0 then
      match takeExact 32 rest with
      | none => .error (.protocolError "truncated public key")
      | some (pk, rest2) =>
        match rest2 with
        | a :: b :: c :: d :: rest3 =>
          let len := ((a * 256 + b) * 256 + c) * 256 + d
          if maxLen < len then .error (.protocolError "oversized message")
          else
            match takeExact len rest3 with
            | none => .error (.protocolError "truncated message")
            | some (m, rest4) => .ok (.sign ⟨pk, m⟩, rest4)
        | _ => .error (.protocolError "truncated message length")
    else .error (.protocolError "unknown request tag")

/-- Modelled from the spec: `Response::read` from the missing `rpc.rs` —
tag byte 0 then exactly 64 signature bytes. -/
def Response.read (input : Bytes) : Except Error (Response × Bytes) :=
  match input with
  | [] => .error (.connectionError "unexpected end of stream")
  | tag :: rest =>
    if tag = 0 then
      match takeExact 64 rest with
      | none => .error (.protocolError "truncated signature")
      | some (sig, rest2) => .ok (.sign ⟨sig⟩, rest2)
    else .error (.protocolError "unknown response tag")

/-- Modelled from the spec: signatory's `PublicKey::from_bytes`, which
validates that the public key is exactly 32 bytes (§4.3: else a
`ProtocolError`). -/
def PublicKey.from_bytes (b : Bytes) : Except Error PublicKey :=
  if b.length = 32 then .ok b else .error (.protocolError "invalid public key length")

/-- The session's TCP socket: the bytes still pending to be read and the
bytes written so far. -/
structure Conn where
  input : Bytes
  output : Bytes
deriving DecidableEq

/-- `Session::sign` from `session.rs`: validate the raw public key, sign
via the keyring, wrap the signature bytes in a response. -/
def Session.sign (kr : Keyring) (req : SignRequest) : Except Error Response :=
  match PublicKey.from_bytes req.public_key with
  | .error e => .error e
  | .ok pk =>
    match kr.sign pk req.msg with
    | .error e => .error e
    | .ok signature => .ok (.sign ⟨signature⟩)

/-- `Session::handle_request` from `session.rs`: read one request, compute
the response (propagating any error), then write the encoded response. -/
def Session.handle_request (kr : Keyring) (maxLen : Nat) (c : Conn) :
    Except Error Unit × Conn :=
  match Request.read maxLen c.input with
  | .error e => (.error e, c)
  | .ok (req, rest) =>
    match req with
    | .sign q =>
      match Session.sign kr q with
      | .error e => (.error e, { c with input := rest })
      | .ok resp =>
        (.ok (), { input := rest, output := c.output ++ resp.to_vec })

/-- `client_session` from `client.rs` (after a successful dial):
`loop { session.handle_request()? }`. Fuel bounds the number of loop
iterations observed; `none` means the loop was still running when the fuel
ran out, `some r` that the function returned `r`. -/
def client_session (kr : Keyring) (maxLen : Nat) :
    Nat → Conn → Option (Except Error Unit × Conn)
  | 0, _ => none
  | fuel + 1, c =>
    match Session.handle_request kr maxLen c with
    | (.ok _, c2) => client_session kr maxLen fuel c2
    | (.error e, c2) => some (.error e, c2)

/-- `RESPAWN_DELAY` from `client.rs`: seconds to wait before respawning. -/
def RESPAWN_DELAY : Nat := 5

/-- `ValidatorConfig` as used by `client_loop` (`config.rs` is out of
scope): address, port and the tri-state reconnect setting. -/
structure ValidatorConfig where
  addr : String
  port : Nat
  reconnect : Option Bool

/-- The payload of a caught panic, as `client_loop` downcasts it: a
`String`, a `&str`, or anything else. -/
inductive PanicPayload where
  | stringPayload (s : String)
  | strPayload (s : String)
  | other

/-- The outcome of one `panic::catch_unwind(|| client_session(..))` call:
either the session returned a `Result`, or it panicked. -/
inductive RunResult where
  | returned (r : Except Error Unit)
  | panicked (p : PanicPayload)

/-- Severity of a log line (`info!` / `error!`). -/
inductive Severity where
  | info
  | error

/-- One observable event of the supervising thread: running one session to
completion, emitting a log line, or sleeping. -/
inductive Event where
  | sessionRun (r : RunResult)
  | log (sev : Severity) (msg : String)
  | sleep (secs : Nat)

/-- How the supervisor loop left off. -/
inductive StopKind where
  | returnedGracefully
  | brokeReconnectDisabled
  | stillRunning

/-- The trace of a `client_loop` run: its events in order and how (or
whether) it stopped. -/
structure LoopTrace where
  events : List Event
  stop : StopKind

/-- The address-and-port bracket every `client_loop` log line starts with
(the Rust format strings all begin with the addr:port bracket). -/
def fmtTarget (cfg : ValidatorConfig) : String :=
  "[" ++ cfg.addr ++ ":" ++ toString cfg.port ++ "] "

/-- The log line `client_loop` emits for a non-graceful outcome: the error
branch renders the error after the target bracket, the panic branches
render the downcast payload or an unknown-cause marker. -/
def failureLog (cfg : ValidatorConfig) : RunResult → String
  | .returned (.error e) => fmtTarget cfg ++ Error.display e
  | .panicked (.stringPayload s) => fmtTarget cfg ++ "client panic! " ++ s
  | .panicked (.strPayload s) => fmtTarget cfg ++ "client panic! " ++ s
  | .panicked .other => fmtTarget cfg ++ "client panic! (unknown cause)"
  | .returned (.ok _) => ""

/-- The tail of one failed iteration of `client_loop`: after logging, break
out of the loop if auto-reconnect is explicitly disabled, otherwise sleep
`RESPAWN_DELAY` seconds and continue with the rest of the loop. -/
def loopFailStep (cfg : ValidatorConfig) (r : RunResult) (t : LoopTrace) :
    LoopTrace :=
  if cfg.reconnect = some false then
    ⟨[.sessionRun r, .log .error (failureLog cfg r)], .brokeReconnectDisabled⟩
  else
    ⟨[.sessionRun r, .log .error (failureLog cfg r), .sleep RESPAWN_DELAY]
      ++ t.events, t.stop⟩

/-- `client_loop` from `client.rs`, driven by the list of per-session
outcomes: a session that returned `Ok` is logged as a graceful close and
ends the loop; an error or caught panic is logged and the loop proceeds to
the reconnect decision. An exhausted outcome list leaves the loop still
running. -/
def clientLoop (cfg : ValidatorConfig) : List RunResult → LoopTrace
  | [] => ⟨[], .stillRunning⟩
  | .returned (.ok _) :: _ =>
    ⟨[.sessionRun (.returned (.ok ())),
      .log .info (fmtTarget cfg ++ "session closed gracefully")],
      .returnedGracefully⟩
  | .returned (.error e) :: rest =>
    loopFailStep cfg (.returned (.error e)) (clientLoop cfg rest)
  | .panicked p :: rest =>
    loopFailStep cfg (.panicked p) (clientLoop cfg rest)

/-- `Client::spawn` from `client.rs`: the spawned thread runs
`client_loop(&config, &keyring)` — the label field is kept on the handle
and not passed to the loop. -/
def Client.run (label : String) (cfg : ValidatorConfig)
    (results : List RunResult) : LoopTrace :=
  clientLoop cfg results

/-- Whether a `client_session` observation is a graceful `Ok` return. -/
def resultIsOk : Option (Except Error Unit × Conn) → Bool
  | some (.ok _, _) => true
  | _ => false

/-- Whether an event is a session run. -/
def isRun : Event → Bool
  | .sessionRun _ => true
  | _ => false

/-- Whether an event is the fixed respawn sleep. -/
def isSleepDelay : Event → Bool
  | .sleep d => d == RESPAWN_DELAY
  | _ => false

/-- The number of connection attempts (session runs) in an event list. -/
def countSessionRuns (es : List Event) : Nat :=
  es.countP isRun

/-- Every session run other than the first is immediately preceded by the
fixed respawn sleep. -/
def runsSeparated : List Event → Bool
  | x :: y :: rest => (!(isRun y) || isSleepDelay x) && runsSeparated (y :: rest)
  | _ => true

/-- Whether a run result is the graceful `Ok` return. -/
def RunResult.isGraceful : RunResult → Bool
  | .returned (.ok _) => true
  | _ => false

/-- A 32-byte test public key (all zero bytes). -/
def pkA : Bytes := List.replicate 32 0

/-- A second 32-byte test public key (all one bytes). -/
def pkB : Bytes := List.replicate 32 1

/-- A test signer whose derivation yields `pkA`. -/
def sA : Signer :=
  ⟨"dalek", "a", .ok pkA, fun _ => .ok (List.replicate 64 0)⟩

/-- A second test signer whose derivation also yields `pkA`. -/
def sB : Signer :=
  ⟨"dalek", "b", .ok pkA, fun _ => .ok (List.replicate 64 1)⟩

/-- A test signer whose public-key derivation fails. -/
def badSigner : Signer :=
  ⟨"dalek", "bad", .error (.providerError "backend unreachable"),
    fun _ => .error (.providerError "backend unreachable")⟩

/-- A test keyring holding only `pkA`. -/
def kr1 : Keyring := ⟨[(pkA, sA)]⟩

/-- Claim C10: `Keyring::from_signers` on the empty signer list succeeds
with an empty mapping, and every sign request against that keyring fails
with the key-lookup error `InvalidKey` (leaving the mapping empty). -/
theorem c10_empty_keyring :
    Keyring.from_signers [] = .ok ⟨[]⟩
    ∧ (∀ pk msg, Keyring.sign ⟨[]⟩ pk msg = .error .invalidKey)
    ∧ (∀ pk msg, Keyring.signSt ⟨[]⟩ pk msg = (.error .invalidKey, ⟨[]⟩)) :=
  ⟨rfl, fun _ _ => rfl, fun _ _ => rfl⟩

/-- Claim C4: for every keyring and every 32-byte public key absent from
its mapping, `Keyring.sign` fails with `InvalidKey` for every message, and
the mapping is returned unchanged. -/
theorem c4_sign_absent_key (kr : Keyring) (pk : PublicKey) (msg : Bytes)
    (hlen : pk.length = 32) (habs : lookupKey kr.keys pk = none) :
    Keyring.sign kr pk msg = .error .invalidKey
    ∧ Keyring.signSt kr pk msg = (.error .invalidKey, kr) := by
  constructor
  · simp [Keyring.sign, Keyring.signSt, habs]
  · simp [Keyring.signSt, habs]

/-- Witness for C4: the concrete keyring holding only `pkA` rejects the
absent key `pkB`. -/
theorem c4_sign_absent_key_witness :
    Keyring.sign kr1 pkB [1, 2, 3] = .error .invalidKey
    ∧ Keyring.signSt kr1 pkB [1, 2, 3] = (.error .invalidKey, kr1) :=
  c4_sign_absent_key kr1 pkB [1, 2, 3] (by decide) rfl

/-- Claim C1 (code bug): `client_session` is `loop { handle_request()? }`
with no break, so no run of it can ever return `Ok` — the first conjunct
shows every observed return is non-graceful. Hence at the claimed input (a
peer that closes cleanly with nothing pending, i.e. an empty input stream)
the session ends with an end-of-stream error, and `client_loop` logs it
through the error branch and (reconnect unset) sleeps to retry: the
graceful-close log and permanent stop the claim requires never happen. -/
theorem c1_no_graceful_session (kr : Keyring) (maxLen fuel : Nat) (c : Conn) :
    resultIsOk (client_session kr maxLen fuel c) = false
    ∧ client_session kr 1000 1 ⟨[], []⟩
        = some (.error (.connectionError "unexpected end of stream"), ⟨[], []⟩)
    ∧ clientLoop ⟨"127.0.0.1", 23456, none⟩
        [.returned (.error (.connectionError "unexpected end of stream"))]
        = ⟨[.sessionRun (.returned (.error (.connectionError "unexpected end of stream"))),
            .log .error "[127.0.0.1:23456] connection error: unexpected end of stream",
            .sleep RESPAWN_DELAY], .stillRunning⟩ := by
  refine ⟨?_, rfl, rfl⟩
  induction fuel generalizing c with
  | zero => rfl
  | succ n ih =>
    rcases hh : Session.handle_request kr maxLen c with ⟨r, c2⟩
    cases r with
    | ok u => simpa [client_session, hh] using ih c2
    | error e => simp [client_session, hh, resultIsOk]

/-- Any non-graceful run makes `clientLoop` take the failure step. -/
theorem clientLoop_fail (cfg : ValidatorConfig) (r : RunResult)
    (rest : List RunResult) (h : r.isGraceful = false) :
    clientLoop cfg (r :: rest) = loopFailStep cfg r (clientLoop cfg rest) := by
  cases r with
  | returned res =>
    cases res with
    | ok u => simp [RunResult.isGraceful] at h
    | error e => rfl
  | panicked p => rfl

/-- With reconnect not explicitly disabled, a run of `n` failing sessions
makes exactly `n` connection attempts and leaves the loop still running. -/
theorem countRuns_replicate (cfg : ValidatorConfig)
    (hrc : cfg.reconnect ≠ some false) (e : Error) (n : Nat) :
    countSessionRuns (clientLoop cfg
        (List.replicate n (.returned (.error e)))).events = n
    ∧ (clientLoop cfg (List.replicate n (.returned (.error e)))).stop
        = .stillRunning := by
  induction n with
  | zero => exact ⟨rfl, rfl⟩
  | succ k ih =>
    have h1 : clientLoop cfg (List.replicate (k + 1) (.returned (.error e)))
        = loopFailStep cfg (.returned (.error e))
            (clientLoop cfg (List.replicate k (.returned (.error e)))) := by
      rw [List.replicate_succ]
      exact clientLoop_fail cfg (.returned (.error e)) _ rfl
    rw [h1]
    unfold loopFailStep
    rw [if_neg hrc]
    obtain ⟨ih1, ih2⟩ := ih
    refine ⟨?_, ih2⟩
    simp only [countSessionRuns] at ih1 ⊢
    simp [List.countP_append, List.countP_cons, isRun, ih1]

/-- Every `clientLoop` trace is empty or starts with a session run. -/
theorem clientLoop_events_shape (cfg : ValidatorConfig) (rs : List RunResult) :
    (clientLoop cfg rs).events = []
    ∨ ∃ r es, (clientLoop cfg rs).events = Event.sessionRun r :: es := by
  cases rs with
  | nil => exact Or.inl rfl
  | cons r rest =>
    refine Or.inr ?_
    cases r with
    | returned res =>
      cases res with
      | ok u => exact ⟨_, _, rfl⟩
      | error e =>
        rw [clientLoop_fail cfg (.returned (.error e)) rest rfl]
        unfold loopFailStep
        split <;> exact ⟨_, _, rfl⟩
    | panicked p =>
      rw [clientLoop_fail cfg (.panicked p) rest rfl]
      unfold loopFailStep
      split <;> exact ⟨_, _, rfl⟩

/-- One failure step preserves the sleep separation of session runs. -/
theorem runsSeparated_loopFailStep (cfg : ValidatorConfig) (r : RunResult)
    (t : LoopTrace) (ht : runsSeparated t.events = true)
    (hshape : t.events = [] ∨ ∃ r2 es, t.events = Event.sessionRun r2 :: es) :
    runsSeparated (loopFailStep cfg r t).events = true := by
  unfold loopFailStep
  split
  · rfl
  · rcases hshape with h0 | ⟨r2, es, h2⟩
    · simp [h0, runsSeparated, isRun]
    · rw [h2] at ht ⊢
      simp [runsSeparated, isRun, isSleepDelay] at ht ⊢
      exact ht

/-- In every `clientLoop` trace, each session run after the first is
immediately preceded by the fixed respawn sleep. -/
theorem runsSeparated_clientLoop (cfg : ValidatorConfig)
    (rs : List RunResult) :
    runsSeparated (clientLoop cfg rs).events = true := by
  induction rs with
  | nil => rfl
  | cons r rest ih =>
    cases r with
    | returned res =>
      cases res with
      | ok u => rfl
      | error e =>
        rw [clientLoop_fail cfg (.returned (.error e)) rest rfl]
        exact runsSeparated_loopFailStep cfg _ _ ih
          (clientLoop_events_shape cfg rest)
    | panicked p =>
      rw [clientLoop_fail cfg (.panicked p) rest rfl]
      exact runsSeparated_loopFailStep cfg _ _ ih
        (clientLoop_events_shape cfg rest)

/-- Claim C2: a panic inside `client_session` is caught at the
`catch_unwind` boundary, logged (with the payload when it downcasts to a
`String` or `&str`, as unknown cause otherwise), and then handled exactly
like an ordinary error: the rest of the trace — the reconnect decision and
everything after — is identical to that of an ordinary error outcome, so
no fault propagates out of the supervising loop. -/
theorem c2_panic_isolated (cfg : ValidatorConfig) (p : PanicPayload)
    (rest : List RunResult) (e : Error) (s : String) :
    (clientLoop cfg (.panicked p :: rest)).events.take 2
      = [.sessionRun (.panicked p), .log .error (failureLog cfg (.panicked p))]
    ∧ failureLog cfg (.panicked (.stringPayload s))
        = fmtTarget cfg ++ "client panic! " ++ s
    ∧ failureLog cfg (.panicked (.strPayload s))
        = fmtTarget cfg ++ "client panic! " ++ s
    ∧ failureLog cfg (.panicked .other)
        = fmtTarget cfg ++ "client panic! (unknown cause)"
    ∧ (clientLoop cfg (.panicked p :: rest)).events.drop 2
        = (clientLoop cfg (.returned (.error e) :: rest)).events.drop 2
    ∧ (clientLoop cfg (.panicked p :: rest)).stop
        = (clientLoop cfg (.returned (.error e) :: rest)).stop := by
  have hp := clientLoop_fail cfg (.panicked p) rest rfl
  have he := clientLoop_fail cfg (.returned (.error e)) rest rfl
  refine ⟨?_, rfl, rfl, rfl, ?_, ?_⟩
  · rw [hp]; unfold loopFailStep; split <;> rfl
  · rw [hp, he]; unfold loopFailStep; split <;> rfl
  · rw [hp, he]; unfold loopFailStep; split <;> rfl

/-- Claim C3: after a non-graceful termination the supervisor stops
permanently exactly when `reconnect` is explicitly `false`; otherwise it
sleeps the fixed `RESPAWN_DELAY` of 5 seconds and tries again — over `n`
successive failures it makes `n` attempts and is still running, every
attempt after the first immediately preceded by the fixed sleep. -/
theorem c3_reconnect_policy (cfg : ValidatorConfig) (r : RunResult)
    (rest : List RunResult) (n : Nat) (e : Error)
    (h : r.isGraceful = false) :
    (cfg.reconnect = some false →
      clientLoop cfg (r :: rest)
        = ⟨[.sessionRun r, .log .error (failureLog cfg r)],
            .brokeReconnectDisabled⟩)
    ∧ (cfg.reconnect ≠ some false →
      (clientLoop cfg (r :: rest)).events
          = [.sessionRun r, .log .error (failureLog cfg r),
              .sleep RESPAWN_DELAY] ++ (clientLoop cfg rest).events
      ∧ (clientLoop cfg (r :: rest)).stop = (clientLoop cfg rest).stop)
    ∧ RESPAWN_DELAY = 5
    ∧ (cfg.reconnect ≠ some false →
      countSessionRuns (clientLoop cfg
          (List.replicate n (.returned (.error e)))).events = n
      ∧ (clientLoop cfg (List.replicate n (.returned (.error e)))).stop
          = .stillRunning)
    ∧ runsSeparated (clientLoop cfg (r :: rest)).events = true := by
  refine ⟨?_, ?_, rfl, fun hrc => countRuns_replicate cfg hrc e n,
    runsSeparated_clientLoop cfg (r :: rest)⟩
  · intro hrc
    rw [clientLoop_fail cfg r rest h]
    unfold loopFailStep
    rw [if_pos hrc]
  · intro hrc
    rw [clientLoop_fail cfg r rest h]
    unfold loopFailStep
    rw [if_neg hrc]
    exact ⟨rfl, rfl⟩

/-- Witness for C3: two successive failures with reconnect unset give two
connection attempts and a still-running supervisor. -/
theorem c3_reconnect_policy_witness :
    countSessionRuns (clientLoop ⟨"127.0.0.1", 26657, none⟩
        (List.replicate 2 (.returned (.error .invalidKey)))).events = 2
    ∧ (clientLoop ⟨"127.0.0.1", 26657, none⟩
        (List.replicate 2 (.returned (.error .invalidKey)))).stop
        = .stillRunning := by
  have h := c3_reconnect_policy ⟨"127.0.0.1", 26657, none⟩
      (.returned (.error .invalidKey)) [] 2 .invalidKey rfl
  exact h.2.2.2.1 (by simp)

/-- Claim C9 as stated is false: the label never reaches the log line. At
the concrete target labelled ZQX, the only log line emitted for a
non-graceful termination is the addr-port-error line, and the label is not
a substring of it. -/
theorem c9_counterexample :
    (Client.run "ZQX" ⟨"127.0.0.1", 26657, none⟩
        [.returned (.error .invalidKey)]).events
      = [.sessionRun (.returned (.error .invalidKey)),
         .log .error "[127.0.0.1:26657] invalid key",
         .sleep RESPAWN_DELAY]
    ∧ ¬ ("ZQX".data <:+: "[127.0.0.1:26657] invalid key".data) :=
  ⟨rfl, by decide⟩

/-- Claim C9 (amended): every non-graceful session termination is logged,
before the retry decision, with the target address, port and error detail
— but not the label, which `Client.run` never passes to the loop. -/
theorem c9_failure_logging (label : String) (cfg : ValidatorConfig)
    (rest : List RunResult) (e : Error) (p : PanicPayload) :
    (∀ rs, Client.run label cfg rs = clientLoop cfg rs)
    ∧ (Client.run label cfg (.returned (.error e) :: rest)).events.take 2
        = [.sessionRun (.returned (.error e)),
           .log .error (failureLog cfg (.returned (.error e)))]
    ∧ (Client.run label cfg (.panicked p :: rest)).events.take 2
        = [.sessionRun (.panicked p),
           .log .error (failureLog cfg (.panicked p))]
    ∧ failureLog cfg (.returned (.error e)) = fmtTarget cfg ++ Error.display e
    ∧ fmtTarget cfg = "[" ++ cfg.addr ++ ":" ++ toString cfg.port ++ "] " := by
  refine ⟨fun _ => rfl, ?_, ?_, rfl, rfl⟩
  · show (clientLoop cfg _).events.take 2 = _
    rw [clientLoop_fail cfg (.returned (.error e)) rest rfl]
    unfold loopFailStep
    split <;> rfl
  · show (clientLoop cfg _).events.take 2 = _
    rw [clientLoop_fail cfg (.panicked p) rest rfl]
    unfold loopFailStep
    split <;> rfl

/-- A signer whose derivation check passes derives some key. -/
theorem derivesOk_ok {s : Signer} (h : derivesOk s = true) :
    ∃ pk, s.public_key = .ok pk := by
  cases hh : s.public_key with
  | ok x => exact ⟨x, rfl⟩
  | error e => simp [derivesOk, hh] at h

/-- Lookup after insertion finds the inserted signer. -/
theorem lookup_insertKey_self (m : KeyMap) (pk : PublicKey) (s : Signer) :
    lookupKey (insertKey m pk s) pk = some s := by
  induction m with
  | nil => simp [insertKey, lookupKey]
  | cons kv rest ih =>
    obtain ⟨k, v⟩ := kv
    by_cases h : k = pk
    · simp [insertKey, h, lookupKey]
    · simp [insertKey, h, lookupKey, ih]

/-- Insertion does not disturb the binding of any other key. -/
theorem lookup_insertKey_other (m : KeyMap) (pk pk2 : PublicKey)
    (s : Signer) (h : pk ≠ pk2) :
    lookupKey (insertKey m pk s) pk2 = lookupKey m pk2 := by
  induction m with
  | nil => simp [insertKey, lookupKey, h]
  | cons kv rest ih =>
    obtain ⟨k, v⟩ := kv
    by_cases hk : k = pk
    · subst hk
      simp [insertKey, lookupKey, h, ih]
    · simp [insertKey, hk, lookupKey, ih]

/-- The invariant of the `from_signers` loop: when every derivation
succeeds, the loop returns a map whose bindings are the last signer
deriving each key, falling back to the accumulator. -/
theorem fromSignersAux_lookup (l : List Signer) :
    ∀ keys, (∀ t ∈ l, derivesOk t = true) →
    ∃ ks, fromSignersAux keys l = .ok ks
      ∧ ∀ pk, lookupKey ks pk
          = match lastDerived l pk with
            | some s => some s
            | none => lookupKey keys pk := by
  induction l with
  | nil =>
    intro keys h
    exact ⟨keys, rfl, fun pk => by simp [lastDerived]⟩
  | cons s rest ih =>
    intro keys h
    obtain ⟨pk0, hpk0⟩ := derivesOk_ok (h s (by simp))
    have hrest : ∀ t ∈ rest, derivesOk t = true := fun t ht => h t (by simp [ht])
    obtain ⟨ks, hks, hlook⟩ := ih (insertKey keys pk0 s) hrest
    refine ⟨ks, ?_, ?_⟩
    · simp [fromSignersAux, hpk0, hks]
    · intro pk
      rw [hlook pk]
      simp only [lastDerived]
      cases hld : lastDerived rest pk with
      | some t => simp
      | none =>
        simp only []
        by_cases hpk : s.public_key = .ok pk
        · have h2 : (Except.ok pk0 : Except Error PublicKey) = .ok pk :=
            hpk0.symm.trans hpk
          have h3 : pk0 = pk := by injection h2
          subst h3
          simp [hpk, lookup_insertKey_self]
        · have hne : pk0 ≠ pk := fun hEq => hpk (hEq ▸ hpk0)
          simp [hpk, lookup_insertKey_other keys pk0 pk s hne]

/-- The `from_signers` loop aborts with the first derivation failure. -/
theorem fromSignersAux_error (pre : List Signer) :
    ∀ keys s post e, (∀ t ∈ pre, derivesOk t = true) →
    s.public_key = .error e →
    fromSignersAux keys (pre ++ s :: post) = .error e := by
  induction pre with
  | nil =>
    intro keys s post e h hs
    simp [fromSignersAux, hs]
  | cons t rest ih =>
    intro keys s post e h hs
    obtain ⟨pk0, hpk0⟩ := derivesOk_ok (h t (by simp))
    have hrest : ∀ u ∈ rest, derivesOk u = true := fun u hu => h u (by simp [hu])
    simp only [List.cons_append, fromSignersAux, hpk0]
    exact ih _ s post e hrest hs

/-- A signer of the list that derives `k` makes `lastDerived` find a
binding for `k`. -/
theorem lastDerived_isSome {l : List Signer} {t : Signer} {k : PublicKey}
    (ht : t ∈ l) (hk : t.public_key = .ok k) :
    (lastDerived l k).isSome = true := by
  induction l with
  | nil => cases ht
  | cons s rest ih =>
    simp only [lastDerived]
    cases hld : lastDerived rest k with
    | some u => rfl
    | none =>
      rcases List.mem_cons.mp ht with h1 | h2
      · subst h1
        simp [hk]
      · have h3 := ih h2
        rw [hld] at h3
        simp at h3

/-- Claim C5: if any signer's public-key derivation fails, the whole
`Keyring::from_signers` construction returns that (first) error and no
keyring value is produced; if every derivation succeeds, a keyring with an
entry for each derived key is returned. -/
theorem c5_from_signers_atomic :
    (∀ pre s post e, (∀ t ∈ pre, derivesOk t = true) →
      s.public_key = .error e →
      Keyring.from_signers (pre ++ s :: post) = .error e)
    ∧ (∀ l, (∀ t ∈ l, derivesOk t = true) →
      ∃ kr, Keyring.from_signers l = .ok kr
        ∧ ∀ t k, t ∈ l → t.public_key = .ok k →
            (lookupKey kr.keys k).isSome = true) := by
  constructor
  · intro pre s post e h hs
    have h1 := fromSignersAux_error pre [] s post e h hs
    simp [Keyring.from_signers, h1]
  · intro l h
    obtain ⟨ks, hks, hlook⟩ := fromSignersAux_lookup l [] h
    refine ⟨⟨ks⟩, by simp [Keyring.from_signers, hks], ?_⟩
    intro t k ht hk
    have h2 := hlook k
    have h3 := lastDerived_isSome ht hk
    cases hld : lastDerived l k with
    | some u =>
      rw [hld] at h2
      simp [h2]
    | none =>
      rw [hld] at h3
      simp at h3

/-- Witness for C5: one failing signer aborts construction with its
provider error. -/
theorem c5_from_signers_atomic_witness :
    Keyring.from_signers [badSigner]
      = .error (.providerError "backend unreachable") :=
  c5_from_signers_atomic.1 [] badSigner [] (.providerError "backend unreachable")
    (by intro t ht; cases ht) rfl

/-- Claim C8: when every derivation succeeds (in particular when two
signers derive the same public key), construction succeeds and each key is
bound to the last signer in list order that derives it. -/
theorem c8_duplicate_last_wins (l : List Signer)
    (h : ∀ t ∈ l, derivesOk t = true) :
    ∃ kr, Keyring.from_signers l = .ok kr
      ∧ ∀ pk, lookupKey kr.keys pk = lastDerived l pk := by
  obtain ⟨ks, hks, hlook⟩ := fromSignersAux_lookup l [] h
  refine ⟨⟨ks⟩, by simp [Keyring.from_signers, hks], ?_⟩
  intro pk
  have h2 := hlook pk
  cases hld : lastDerived l pk with
  | some u => rw [hld] at h2; simpa using h2
  | none => rw [hld] at h2; simpa [lookupKey] using h2

/-- Witness for C8: of the two test signers both deriving `pkA`, the
second one ends up bound. -/
theorem c8_duplicate_last_wins_witness :
    lookupResult (Keyring.from_signers [sA, sB]) pkA = some sB := by
  obtain ⟨kr, hkr, hlook⟩ := c8_duplicate_last_wins [sA, sB] (by decide)
  have h2 := hlook pkA
  simp only [lookupResult, hkr]
  rw [h2]
  rfl

/-- Reading exactly the length of the first chunk splits an appended
stream back into the chunk and the remainder. -/
theorem takeExact_append (l1 l2 : Bytes) :
    takeExact l1.length (l1 ++ l2) = some (l1, l2) := by
  simp [takeExact, List.take_left, List.drop_left]

/-- Claim C6: for every 32-byte public key and message no longer than the
configured maximum (itself below the 4-byte length field's range),
decoding the encoding of `Request::Sign` returns exactly the same fields
with nothing left over, and likewise for `Response::Sign` with a 64-byte
signature. -/
theorem c6_wire_roundtrip (pk m sig : Bytes) (maxLen : Nat)
    (hpk : pk.length = 32) (hm : m.length ≤ maxLen)
    (hmax : maxLen < 4294967296) (hsig : sig.length = 64) :
    Request.read maxLen (Request.to_vec (.sign ⟨pk, m⟩))
      = .ok (.sign ⟨pk, m⟩, [])
    ∧ Response.read (Response.to_vec (.sign ⟨sig⟩))
      = .ok (.sign ⟨sig⟩, []) := by
  constructor
  · have hm32 : m.length < 4294967296 := lt_of_le_of_lt hm hmax
    have h1 : takeExact 32 (pk ++ (m.length / 16777216 % 256 ::
          m.length / 65536 % 256 :: m.length / 256 % 256 ::
          m.length % 256 :: m))
        = some (pk, m.length / 16777216 % 256 :: m.length / 65536 % 256 ::
            m.length / 256 % 256 :: m.length % 256 :: m) := by
      rw [← hpk]
      exact takeExact_append pk (encodeBE32 m.length ++ m)
    have h2 : takeExact m.length m = some (m, []) := by
      have h0 := takeExact_append m []
      simpa using h0
    have h3 : ((m.length / 16777216 % 256 * 256 + m.length / 65536 % 256)
        * 256 + m.length / 256 % 256) * 256 + m.length % 256 = m.length := by
      omega
    have h4 : ¬ (maxLen < m.length) := by omega
    simp [Request.to_vec, Request.read, encodeBE32, h1, h3, h4, h2]
  · have h5 : takeExact 64 sig = some (sig, []) := by
      rw [← hsig]
      simpa using takeExact_append sig []
    simp [Response.to_vec, Response.read, h5]

/-- Witness for C6: a concrete request and response survive the round
trip. -/
theorem c6_wire_roundtrip_witness :
    Request.read 100 (Request.to_vec (.sign ⟨pkA, [1, 2, 3]⟩))
      = .ok (.sign ⟨pkA, [1, 2, 3]⟩, [])
    ∧ Response.read (Response.to_vec (.sign ⟨List.replicate 64 2⟩))
      = .ok (.sign ⟨List.replicate 64 2⟩, []) :=
  c6_wire_roundtrip pkA [1, 2, 3] (List.replicate 64 2) 100
    (by decide) (by decide) (by decide) (by decide)

/-- Claim C7: when the keyring call fails with `InvalidKey` or a
`ProviderError` while handling a decoded Sign request,
`Session::handle_request` returns that error and writes nothing to the
transport. -/
theorem c7_sign_failure_propagates (kr : Keyring) (maxLen : Nat) (c : Conn)
    (pkb m rest : Bytes) (pk : PublicKey) (e : Error)
    (hread : Request.read maxLen c.input = .ok (.sign ⟨pkb, m⟩, rest))
    (hpk : PublicKey.from_bytes pkb = .ok pk)
    (hsign : kr.sign pk m = .error e)
    (he : e = .invalidKey ∨ ∃ d, e = .providerError d) :
    Session.handle_request kr maxLen c = (.error e, { c with input := rest })
    ∧ (Session.handle_request kr maxLen c).2.output = c.output := by
  have h1 : Session.handle_request kr maxLen c
      = (.error e, { c with input := rest }) := by
    simp [Session.handle_request, hread, Session.sign, hpk, hsign]
  exact ⟨h1, by rw [h1]⟩

/-- Witness for C7: a well-formed Sign request for the absent key `pkB`
ends the session with `InvalidKey` and leaves the output untouched. -/
theorem c7_sign_failure_propagates_witness :
    Session.handle_request kr1 100 ⟨Request.to_vec (.sign ⟨pkB, [9]⟩), [5]⟩
      = (.error .invalidKey, ⟨[], [5]⟩)
    ∧ (Session.handle_request kr1 100
        ⟨Request.to_vec (.sign ⟨pkB, [9]⟩), [5]⟩).2.output = [5] :=
  c7_sign_failure_propagates kr1 100 ⟨Request.to_vec (.sign ⟨pkB, [9]⟩), [5]⟩
    pkB [9] [] pkB .invalidKey (by decide) (by decide) rfl (Or.inl rfl)

end KMS
